import Mathlib

/-!
Verification development for the dataforge grading core.

Shallow embedding of:
* `generated-datasets/verify_solution.py` (SolutionVerifier: check execution,
  canary audit, score aggregation),
* `generated-datasets/workspace-python-api/verification/verify_fixes.py`
  (SecurityVerifier: pattern-based vulnerability checks and severity-weighted
  scoring),
* `scripts/benchmark_evaluation.py` (analyze_results: difficulty bucketing and
  recommendations).

Numbers are modelled as `Nat`/`Rat`; Python `round(x, 1)` is modelled as exact
banker's rounding on rationals; external effects (the file system, shell
commands, the `re` regex engine) are modelled as explicit data/oracles.
-/

namespace Dataforge

/-- Python's banker's rounding of a rational to the nearest integer
(ties go to the even integer), as used by `round`. -/
def roundHalfEven (q : ℚ) : ℤ :=
  let f : ℚ := q - (⌊q⌋ : ℚ)
  if f < 1/2 then ⌊q⌋
  else if 1/2 < f then ⌊q⌋ + 1
  else if ⌊q⌋ % 2 = 0 then ⌊q⌋ else ⌊q⌋ + 1

/-- Python `round(x, 1)`: round to one decimal digit, ties to even. -/
def pyRound1 (q : ℚ) : ℚ := (roundHalfEven (q * 10) : ℚ) / 10

/-- `leadsWith n h` is true when the character list `n` is an initial
segment of `h` (helper for Python's `in` substring test). -/
def leadsWith : List Char → List Char → Bool
  | [], _ => true
  | _ :: _, [] => false
  | a :: as, b :: bs => a == b && leadsWith as bs

/-- `hasSeg n h` is true when `n` occurs contiguously inside `h`
(helper for Python's `in` substring test). -/
def hasSeg (n : List Char) : List Char → Bool
  | [] => n.isEmpty
  | b :: bs => leadsWith n (b :: bs) || hasSeg n bs

/-- Python's `needle in hay` substring test on strings. -/
def pyIn (needle hay : String) : Bool := hasSeg needle.data hay.data

/-- Python `str(b)` for a boolean: `"True"` / `"False"`. -/
def strOfBool (b : Bool) : String := if b then "True" else "False"

/-- ASCII lowercasing of one character (Python `str.lower` on the ASCII
range, which covers every string compared here). -/
def lowerChar (c : Char) : Char :=
  if 65 ≤ c.toNat ∧ c.toNat ≤ 90 then Char.ofNat (c.toNat + 32) else c

/-- Python `s.lower()` (ASCII). -/
def pyLower (s : String) : String := ⟨s.data.map lowerChar⟩

/-- Python `s.startswith(p)`. -/
def pyStartsWith (p s : String) : Bool := leadsWith p.data s.data

/-! ## Embedding of `verify_solution.py` (SolutionVerifier) -/

/-- One entry of `SolutionVerifier.results` (a `CheckOutcome`):
the dict `{name, description, passed, required, message}` built by
`_check_canary_token` and `_execute_check`. -/
structure VSOutcome where
  name : String
  description : String
  passed : Bool
  required : Bool
  message : String
deriving DecidableEq

/-- A file-system entry as seen by the verifier: a readable file with known
text content, or a path whose `read_text` raises `IOError`-style exceptions
(permission error, directory, ...) carrying a message. -/
inductive FileEntry where
  | readable (content : String)
  | unreadable (err : String)
deriving DecidableEq

/-- Result of running a shell command via `subprocess.run`: combined
stdout+stderr on completion, `timeout` for `TimeoutExpired`, or `failed`
for any other raised exception. -/
inductive CmdResult where
  | ok (output : String)
  | timeout
  | failed (err : String)
deriving DecidableEq

/-- The environment of one verification run: the file system (path to
entry), the shell-command oracle, and the `re.search` oracle
(pattern, content ↦ matched?). -/
structure Env where
  fs : List (String × FileEntry)
  cmd : String → CmdResult
  regex : String → String → Bool

/-- Look a path up in the modelled file system. -/
def lookupFile : List (String × FileEntry) → String → Option FileEntry
  | [], _ => none
  | e :: rest, p => if e.1 = p then some e.2 else lookupFile rest p

/-- `Path(p).exists()` over the modelled file system. -/
def pathExists (env : Env) (p : String) : Bool := (lookupFile env.fs p).isSome

/-- Target resolution used by `_execute_check`: a target beginning with
`/` is used as-is, any other target is resolved under the solution root. -/
def resolveTarget (root target : String) : String :=
  if pyStartsWith "/" target then target else root ++ "/" ++ target

/-- The shell-expression sniff of the `output_contains` branch:
`any(cmd in target for cmd in ['cat ', 'grep ', 'echo ', '||', '&&', '2>'])`. -/
def isCommandLike (target : String) : Bool :=
  ["cat ", "grep ", "echo ", "||", "&&", "2>"].any (fun c => pyIn c target)

/-- Outcome of the content-acquisition phase of an `output_contains` check
(lines 150–177 of `verify_solution.py`): either an exception escaped to the
outer handler (`raised`), or the `content` variable ended as `None` or a
string. -/
inductive ContentStep where
  | raised (err : String)
  | got (content : Option String)
deriving DecidableEq

/-- Content acquisition for `output_contains`: try the command oracle when
the target looks like a shell expression; if `content` is still `None`
afterwards, fall back to reading the resolved target as a file. -/
def capturedContent (env : Env) (root target : String) : ContentStep :=
  let fromCmd : Option String :=
    if isCommandLike target then
      match env.cmd target with
      | .ok out => some out
      | .timeout => none
      | .failed _ => none
    else none
  match fromCmd with
  | some c => .got (some c)
  | none =>
    match lookupFile env.fs (resolveTarget root target) with
    | some (.readable c) => .got (some c)
    | some (.unreadable e) => .raised e
    | none => .got none

/-- `SolutionVerifier._execute_check`: run one automated check of the given
type against the environment, returning the outcome dict.  All exceptions
are caught by the outer handler and turned into an `Error: ...` message. -/
def executeCheck (env : Env) (root check_type target expected : String) : VSOutcome :=
  let base : VSOutcome :=
    { name := check_type ++ "_" ++ target.take 20
      description := check_type ++ " check for " ++ target
      passed := false
      required := false
      message := "" }
  if check_type = "file_exists" then
    let ex := pathExists env (resolveTarget root target)
    { base with
        passed := pyLower (strOfBool ex) == pyLower expected
        message := "File " ++ target ++ " exists: " ++ strOfBool ex }
  else if check_type = "output_contains" then
    match capturedContent env root target with
    | .raised e => { base with message := "Error: " ++ e }
    | .got (some c) =>
      if c ≠ "" then
        let p := pyIn (pyLower expected) (pyLower c)
        { base with
            passed := p
            message := "\x27" ++ expected ++ "\x27 found: " ++ strOfBool p }
      else
        { base with message := "Could not get content from: " ++ target.take 50 }
    | .got none =>
      { base with message := "Could not get content from: " ++ target.take 50 }
  else if check_type = "content_contains" then
    match lookupFile env.fs (resolveTarget root target) with
    | some (.readable c) =>
      { base with
          passed := pyIn expected c
          message := "Content check for \x27" ++ expected ++ "\x27" }
    | some (.unreadable e) => { base with message := "Error: " ++ e }
    | none => { base with message := "File " ++ target ++ " not found" }
  else if check_type = "regex_match" then
    match lookupFile env.fs (resolveTarget root target) with
    | some (.readable c) =>
      let p := env.regex expected c
      { base with
          passed := p
          message := "Regex \x27" ++ expected.take 30 ++ "\x27 match: " ++ strOfBool p }
    | some (.unreadable e) => { base with message := "Error: " ++ e }
    | none => { base with message := "File " ++ target ++ " not found" }
  else
    { base with message := "Unknown check type: " ++ check_type }

/-- Whether the canary token occurs in some (readable regular) file of the
solution tree; `files` lists the text contents found by
`solution_dir.rglob('*')`. -/
def canaryFound (canary : String) (files : List String) : Bool :=
  files.any (fun c => pyIn canary c)

/-- `SolutionVerifier._check_canary_token`: when the task descriptor declares
a (non-empty) canary token, append a required outcome recording whether the
token occurs somewhere in the solution tree; otherwise leave the results
untouched. -/
def checkCanaryToken (canary : String) (files : List String)
    (results : List VSOutcome) : List VSOutcome :=
  if canary = "" then results
  else
    let found := canaryFound canary files
    results ++
      [{ name := "canary_token"
         description := "Canary token present in solution"
         passed := found
         required := true
         message := "Canary \x27" ++ canary.take 30 ++ "...\x27 " ++
           (if found then "found" else "NOT FOUND") }]

/-- One automated check from `task.yaml` (`verification.automated_checks`). -/
structure CheckSpec where
  check_type : String
  target : String
  expected : String
deriving DecidableEq

/-- `SolutionVerifier._run_automated_checks`: append one outcome per declared
check. -/
def runAutomatedChecks (env : Env) (root : String) (checks : List CheckSpec)
    (results : List VSOutcome) : List VSOutcome :=
  results ++ checks.map (fun c => executeCheck env root c.check_type c.target c.expected)

/-- The full results list produced by `SolutionVerifier.verify` (the
success-criteria step only prints and records nothing). -/
def verifyResults (env : Env) (root canary : String) (files : List String)
    (checks : List CheckSpec) : List VSOutcome :=
  runAutomatedChecks env root checks (checkCanaryToken canary files [])

/-- `passed` count of `_calculate_score`. -/
def vsPassed (rs : List VSOutcome) : ℕ := (rs.filter (·.passed)).length

/-- `required_total` of `_calculate_score`. -/
def requiredTotal (rs : List VSOutcome) : ℕ := (rs.filter (·.required)).length

/-- `required_passed` of `_calculate_score`. -/
def requiredPassed (rs : List VSOutcome) : ℕ :=
  (rs.filter (fun r => r.required && r.passed)).length

/-- `auto_score` of `_calculate_score`: `(passed / total * 100) if total > 0
else 0`.  This is the quantity the spec calls `score_percentage`
(`score_percentage = passed/total*100`, §4.2/§8). -/
def autoScore (rs : List VSOutcome) : ℚ :=
  if rs.length > 0 then (vsPassed rs : ℚ) / (rs.length : ℚ) * 100 else 0

/-- `all_required_passed`: equality of required counts, vacuously true when
there are no required outcomes. -/
def allRequiredPassed (rs : List VSOutcome) : Bool :=
  if requiredTotal rs > 0 then requiredPassed rs == requiredTotal rs else true

/-- The summary dict assembled by `_calculate_score` (the reported
`score_percentage` field is `round(auto_score, 1)`). -/
structure ScoreSummary where
  total : ℕ
  passed : ℕ
  failed : ℕ
  score_percentage : ℚ
  required_total : ℕ
  required_passed : ℕ
  all_passed : Bool
  overall_status : String
deriving DecidableEq

/-- `SolutionVerifier._calculate_score`. -/
def calculateScore (rs : List VSOutcome) : ScoreSummary :=
  { total := rs.length
    passed := vsPassed rs
    failed := rs.length - vsPassed rs
    score_percentage := pyRound1 (autoScore rs)
    required_total := requiredTotal rs
    required_passed := requiredPassed rs
    all_passed := allRequiredPassed rs
    overall_status :=
      if decide (70 ≤ autoScore rs) && allRequiredPassed rs then "PASS" else "FAIL" }

/-- C1: the aggregator's verdict is the 70%-threshold conjoined with the
required gate; no required checks means the gate is vacuous; an empty
outcome list scores 0 and fails. -/
theorem c1_overall_status_iff :
    (∀ rs : List VSOutcome,
        (calculateScore rs).overall_status = "PASS" ↔
          (70 ≤ autoScore rs ∧ allRequiredPassed rs = true)) ∧
    (∀ rs : List VSOutcome, requiredTotal rs = 0 → allRequiredPassed rs = true) ∧
    autoScore [] = 0 ∧ (calculateScore []).overall_status = "FAIL" := by
  refine ⟨fun rs => ?_, fun rs h => ?_, by decide, by decide⟩
  · unfold calculateScore
    by_cases h70 : 70 ≤ autoScore rs
    · by_cases hreq : allRequiredPassed rs = true
      · simp [h70, hreq]
      · simp only [Bool.not_eq_true] at hreq
        simp [h70, hreq]
    · simp [h70]
  · unfold allRequiredPassed
    simp [h]

/-- C1 witness: a single non-required outcome has a vacuously true required
gate. -/
theorem c1_overall_status_iff_witness :
    requiredTotal [⟨"n", "d", true, false, "m"⟩] = 0 ∧
      allRequiredPassed [⟨"n", "d", true, false, "m"⟩] = true :=
  ⟨by decide, c1_overall_status_iff.2.1 [⟨"n", "d", true, false, "m"⟩] (by decide)⟩

/-- The claim's pass criterion for `file_exists`, taken verbatim from the
spec sentence `execute passes iff Path(target).exists() ==
(expected.lower() == "true")` (for refinement comparison with the code). -/
def specFileExistsPass (ex : Bool) (expected : String) : Bool :=
  ex == (pyLower expected == "true")

/-- C5 counterexample: with `expected = "x"` and a missing file the claim's
formula predicts a pass but the code fails the check (it compares the
string form of the existence boolean, and `"x"` matches neither `"true"`
nor `"false"`). -/
theorem c5_file_exists_counterexample :
    (executeCheck ⟨[], fun _ => .ok "", fun _ _ => false⟩
        "/s" "file_exists" "f" "x").passed = false ∧
      specFileExistsPass
        (pathExists ⟨[], fun _ => .ok "", fun _ _ => false⟩
          (resolveTarget "/s" "f")) "x" = true := by
  constructor
  · decide
  · decide

/-- Unfolding of the `file_exists` branch of `_execute_check`. -/
theorem executeCheck_file_exists (env : Env) (root target expected : String) :
    (executeCheck env root "file_exists" target expected).passed =
      (pyLower (strOfBool (pathExists env (resolveTarget root target))) ==
        pyLower expected) := by
  simp [executeCheck]

/-- C5 amended: the code compares `str(exists).lower()` with
`expected.lower()`; whenever `expected.lower()` is `"true"` or `"false"`
this agrees with the claimed criterion
`Path(target).exists() == (expected.lower() == "true")`, with absolute
targets used as-is and relative targets resolved under the solution root. -/
theorem c5_file_exists_pass_iff :
    ∀ (env : Env) (root target expected : String),
      (executeCheck env root "file_exists" target expected).passed =
        (pyLower (strOfBool (pathExists env (resolveTarget root target))) ==
          pyLower expected) ∧
      (pyLower expected = "true" ∨ pyLower expected = "false" →
        ((executeCheck env root "file_exists" target expected).passed = true ↔
          pathExists env (resolveTarget root target) =
            (pyLower expected == "true"))) := by
  intro env root target expected
  refine ⟨executeCheck_file_exists env root target expected, fun h => ?_⟩
  rw [executeCheck_file_exists env root target expected]
  rcases h with h | h <;> rw [h] <;>
    cases hex : pathExists env (resolveTarget root target) <;> decide

/-- Unfolding of the `output_contains` branch of `_execute_check`. -/
theorem executeCheck_output_contains (env : Env) (root target expected : String) :
    executeCheck env root "output_contains" target expected =
      (match capturedContent env root target with
      | .raised e =>
        { name := "output_contains_" ++ target.take 20
          description := "output_contains check for " ++ target
          passed := false, required := false, message := "Error: " ++ e }
      | .got (some c) =>
        if c ≠ "" then
          { name := "output_contains_" ++ target.take 20
            description := "output_contains check for " ++ target
            passed := pyIn (pyLower expected) (pyLower c), required := false
            message := "\x27" ++ expected ++ "\x27 found: " ++
              strOfBool (pyIn (pyLower expected) (pyLower c)) }
        else
          { name := "output_contains_" ++ target.take 20
            description := "output_contains check for " ++ target
            passed := false, required := false
            message := "Could not get content from: " ++ target.take 50 }
      | .got none =>
        { name := "output_contains_" ++ target.take 20
          description := "output_contains check for " ++ target
          passed := false, required := false
          message := "Could not get content from: " ++ target.take 50 }) := by
  cases hcap : capturedContent env root target with
  | raised e => simp [executeCheck, hcap]
  | got c => cases c <;> simp [executeCheck, hcap]

/-- C9: empty captured content is falsy in Python, so the check reports
"Could not get content" and fails, whatever `expected` is; and the empty
string is a substring of every string, so this genuinely loses passes that
substring logic alone would grant. -/
theorem c9_empty_content_fails :
    (∀ (env : Env) (root target expected : String),
        capturedContent env root target = .got (some "") →
        (executeCheck env root "output_contains" target expected).passed = false ∧
          (executeCheck env root "output_contains" target expected).message =
            "Could not get content from: " ++ target.take 50) ∧
    (∀ s : String, pyIn "" s = true) := by
  constructor
  · intro env root target expected h
    rw [executeCheck_output_contains, h]
    constructor <;> rfl
  · intro s
    show hasSeg [] s.data = true
    induction s.data with
    | nil => rfl
    | cons b bs ih => simp [hasSeg, leadsWith]

/-- C9 witness: an empty file under the solution root. -/
theorem c9_empty_content_fails_witness :
    capturedContent ⟨[("/s/f", .readable "")], fun _ => .ok "", fun _ _ => false⟩
        "/s" "f" = .got (some "") ∧
      (executeCheck ⟨[("/s/f", .readable "")], fun _ => .ok "", fun _ _ => false⟩
          "/s" "output_contains" "f" "").passed = false :=
  ⟨by decide,
    (c9_empty_content_fails.1 ⟨[("/s/f", .readable "")], fun _ => .ok "", fun _ _ => false⟩
      "/s" "f" "" (by decide)).1⟩

/-- C4 counterexample: a command timeout does NOT always yield a failed
outcome — when the target string itself also resolves to an existing
non-empty file containing `expected`, the file fallback turns the outcome
into a pass. -/
theorem c4_timeout_counterexample :
    isCommandLike "cat f" = true ∧
      (⟨[("/s/cat f", .readable "hello")], fun _ => .timeout, fun _ _ => false⟩ :
          Env).cmd "cat f" = .timeout ∧
      (executeCheck
          ⟨[("/s/cat f", .readable "hello")], fun _ => .timeout, fun _ _ => false⟩
          "/s" "output_contains" "cat f" "hello").passed = true := by
  refine ⟨by decide, rfl, by decide⟩

/-- C4 amended: a command timeout yields a failed outcome with the
"Could not get content" diagnostic unless the target string itself resolves
to an existing file (then the file fallback applies); a read failure in the
file branch is caught and yields a failed outcome with an `Error:` message;
`executeCheck` is total by construction (the outer handler converts every
exception into a message), so verification always terminates with an
outcome object. -/
theorem c4_failure_outcomes :
    ∀ (env : Env) (root target expected : String),
      (isCommandLike target = true → env.cmd target = .timeout →
        lookupFile env.fs (resolveTarget root target) = none →
        (executeCheck env root "output_contains" target expected).passed = false ∧
          (executeCheck env root "output_contains" target expected).message =
            "Could not get content from: " ++ target.take 50) ∧
      (∀ e, isCommandLike target = false →
        lookupFile env.fs (resolveTarget root target) = some (.unreadable e) →
        (executeCheck env root "output_contains" target expected).passed = false ∧
          (executeCheck env root "output_contains" target expected).message =
            "Error: " ++ e) := by
  intro env root target expected
  constructor
  · intro hcl hcmd hlook
    have hcap : capturedContent env root target = .got none := by
      simp [capturedContent, hcl, hcmd, hlook]
    rw [executeCheck_output_contains, hcap]
    exact ⟨rfl, rfl⟩
  · intro e hcl hlook
    have hcap : capturedContent env root target = .raised e := by
      simp [capturedContent, hcl, hlook]
    rw [executeCheck_output_contains, hcap]
    exact ⟨rfl, rfl⟩

/-- C4 witness: a timing-out command with no fallback file fails with the
diagnostic message, and an unreadable file in the file branch fails with an
`Error:` message. -/
theorem c4_failure_outcomes_witness :
    (isCommandLike "cat f" = true ∧
      (executeCheck ⟨[], fun _ => .timeout, fun _ _ => false⟩
          "/s" "output_contains" "cat f" "x").passed = false) ∧
    (isCommandLike "g" = false ∧
      (executeCheck ⟨[("/s/g", .unreadable "boom")], fun _ => .ok "", fun _ _ => false⟩
          "/s" "output_contains" "g" "x").message = "Error: " ++ "boom") :=
  ⟨⟨by decide,
      ((c4_failure_outcomes ⟨[], fun _ => .timeout, fun _ _ => false⟩
          "/s" "cat f" "x").1 (by decide) rfl (by decide)).1⟩,
    ⟨by decide,
      ((c4_failure_outcomes ⟨[("/s/g", .unreadable "boom")], fun _ => .ok "", fun _ _ => false⟩
          "/s" "g" "x").2 "boom" (by decide) (by decide)).2⟩⟩

/-- `leadsWith` tests for an initial segment. -/
theorem leadsWith_iff (n : List Char) :
    ∀ h : List Char, leadsWith n h = true ↔ ∃ t, h = n ++ t := by
  induction n with
  | nil =>
    intro h
    simp [leadsWith]
  | cons a as ih =>
    intro h
    cases h with
    | nil => simp [leadsWith]
    | cons b bs =>
      simp only [leadsWith, Bool.and_eq_true, beq_iff_eq, ih bs, List.cons_append]
      constructor
      · rintro ⟨rfl, t, rfl⟩
        exact ⟨t, rfl⟩
      · rintro ⟨t, h⟩
        cases h
        exact ⟨rfl, t, rfl⟩

/-- `hasSeg` tests for a contiguous occurrence. -/
theorem hasSeg_iff (n : List Char) :
    ∀ h : List Char, hasSeg n h = true ↔ ∃ p q, h = p ++ n ++ q := by
  intro h
  induction h with
  | nil =>
    simp only [hasSeg, List.isEmpty_iff]
    constructor
    · rintro rfl
      exact ⟨[], [], rfl⟩
    · rintro ⟨p, q, h⟩
      rcases List.append_eq_nil.mp h.symm with ⟨h1, rfl⟩
      exact (List.append_eq_nil.mp h1).2
  | cons b bs ih =>
    simp only [hasSeg, Bool.or_eq_true, leadsWith_iff, ih]
    constructor
    · rintro (⟨t, ht⟩ | ⟨p, q, hpq⟩)
      · exact ⟨[], t, by simp [ht]⟩
      · exact ⟨b :: p, q, by simp [hpq]⟩
    · rintro ⟨p, q, hpq⟩
      cases p with
      | nil =>
        exact Or.inl ⟨q, by simpa using hpq⟩
      | cons x xs =>
        rw [List.cons_append, List.cons_append] at hpq
        injection hpq with h1 h2
        exact Or.inr ⟨xs, q, by simpa using h2⟩

/-- Python's substring test agrees with literal occurrence. -/
theorem pyIn_iff (needle hay : String) :
    pyIn needle hay = true ↔ ∃ p q : String, hay = p ++ needle ++ q := by
  unfold pyIn
  rw [hasSeg_iff]
  constructor
  · rintro ⟨p, q, h⟩
    refine ⟨⟨p⟩, ⟨q⟩, String.ext ?_⟩
    simpa using h
  · rintro ⟨p, q, h⟩
    exact ⟨p.data, q.data, by simpa using congrArg String.data h⟩

/-- C6: with a declared token the auditor appends a required outcome whose
pass bit is set iff the token occurs literally in some file of the tree
(the file list is the recursive enumeration, so nesting is included); the
empty tree reports not-found; without a declared token nothing is recorded. -/
theorem c6_canary_audit :
    ∀ (canary : String) (files : List String) (results : List VSOutcome),
      (canary = "" → checkCanaryToken canary files results = results) ∧
      (canary ≠ "" → ∃ o : VSOutcome,
        checkCanaryToken canary files results = results ++ [o] ∧
        o.name = "canary_token" ∧ o.required = true ∧
        o.passed = canaryFound canary files) ∧
      (canaryFound canary files = true ↔
        ∃ c ∈ files, ∃ p q : String, c = p ++ canary ++ q) ∧
      canaryFound canary [] = false := by
  intro canary files results
  refine ⟨fun h => by simp [checkCanaryToken, h], fun h => ?_, ?_, rfl⟩
  · refine ⟨{ name := "canary_token"
              description := "Canary token present in solution"
              passed := canaryFound canary files
              required := true
              message := "Canary \x27" ++ canary.take 30 ++ "...\x27 " ++
                (if canaryFound canary files then "found" else "NOT FOUND") },
      by simp [checkCanaryToken, h], rfl, rfl, rfl⟩
  · unfold canaryFound
    rw [List.any_eq_true]
    constructor
    · rintro ⟨c, hc, hin⟩
      exact ⟨c, hc, (pyIn_iff canary c).mp hin⟩
    · rintro ⟨c, hc, hocc⟩
      exact ⟨c, hc, (pyIn_iff canary c).mpr hocc⟩

/-- C6 witness: a concrete tree containing the token in a nested file, and
the disabled case. -/
theorem c6_canary_audit_witness :
    (∃ o : VSOutcome,
        checkCanaryToken "tok" ["no", "a tok b"] [] = [] ++ [o] ∧
        o.name = "canary_token" ∧ o.required = true ∧
        o.passed = canaryFound "tok" ["no", "a tok b"]) ∧
      checkCanaryToken "" ["no"] [] = [] :=
  ⟨(c6_canary_audit "tok" ["no", "a tok b"] []).2.1 (by decide),
    (c6_canary_audit "" ["no"] []).1 rfl⟩

/-- The passed-and-required count never exceeds the required count. -/
theorem requiredPassed_le (rs : List VSOutcome) :
    requiredPassed rs ≤ requiredTotal rs := by
  induction rs with
  | nil => simp [requiredPassed, requiredTotal]
  | cons r t ih =>
    simp only [requiredPassed, requiredTotal, List.filter_cons] at ih ⊢
    cases hr : r.required <;> cases hp : r.passed <;>
      simp [hr, hp, List.length_cons] <;> omega

/-- One failing required outcome makes the required gate strict. -/
theorem requiredPassed_lt_of_failed {rs : List VSOutcome} {o : VSOutcome}
    (hm : o ∈ rs) (hreq : o.required = true) (hp : o.passed = false) :
    requiredPassed rs < requiredTotal rs := by
  induction rs with
  | nil => cases hm
  | cons r t ih =>
    simp only [requiredPassed, requiredTotal, List.filter_cons]
    rcases List.mem_cons.mp hm with rfl | hmt
    · have h1 := requiredPassed_le t
      simp only [requiredPassed, requiredTotal] at h1
      simp [hreq, hp]
      omega
    · have h2 := ih hmt
      simp only [requiredPassed, requiredTotal] at h2
      cases hr : r.required <;> cases hpp : r.passed <;>
        simp [hr, hpp] <;> omega

/-- A failing required outcome anywhere in the list falsifies
`all_required_passed`. -/
theorem allRequiredPassed_false_of_failed {rs : List VSOutcome} {o : VSOutcome}
    (hm : o ∈ rs) (hreq : o.required = true) (hp : o.passed = false) :
    allRequiredPassed rs = false := by
  have hlt := requiredPassed_lt_of_failed hm hreq hp
  unfold allRequiredPassed
  rw [if_pos (by omega)]
  exact beq_eq_false_iff_ne.mpr (Nat.ne_of_lt hlt)

/-- C8: a declared canary token that occurs in no file of the solution tree
yields a failed required outcome, so the required gate is false and the
overall verdict is FAIL no matter what the automated checks report. -/
theorem c8_missing_canary_forces_fail :
    ∀ (env : Env) (root canary : String) (files : List String)
      (checks : List CheckSpec),
      canary ≠ "" →
      (∀ c ∈ files, pyIn canary c = false) →
      allRequiredPassed (verifyResults env root canary files checks) = false ∧
        (calculateScore (verifyResults env root canary files checks)).overall_status
          = "FAIL" := by
  intro env root canary files checks hc hnone
  have hfound : canaryFound canary files = false :=
    List.any_eq_false.mpr (by intro c hcmem; simp [hnone c hcmem])
  obtain ⟨o, heq, -, hreq, hpass⟩ := (c6_canary_audit canary files []).2.1 hc
  have hmem : o ∈ verifyResults env root canary files checks := by
    unfold verifyResults runAutomatedChecks
    rw [heq]
    simp
  have hfail : allRequiredPassed (verifyResults env root canary files checks) = false :=
    allRequiredPassed_false_of_failed hmem hreq (by rw [hpass, hfound])
  refine ⟨hfail, ?_⟩
  unfold calculateScore
  simp [hfail]

/-- C8 witness: one missing token and one (passing) automated check. -/
theorem c8_missing_canary_forces_fail_witness :
    (calculateScore
        (verifyResults ⟨[("/s/a", .readable "yes")], fun _ => .ok "", fun _ _ => false⟩
          "/s" "tok" ["abc"]
          [⟨"file_exists", "a", "true"⟩])).overall_status = "FAIL" :=
  (c8_missing_canary_forces_fail
    ⟨[("/s/a", .readable "yes")], fun _ => .ok "", fun _ _ => false⟩
    "/s" "tok" ["abc"] [⟨"file_exists", "a", "true"⟩]
    (by decide) (by decide)).2

/-- C5 witness: an existing file with `expected = "True"`. -/
theorem c5_file_exists_pass_iff_witness :
    (pyLower "True" = "true" ∨ pyLower "True" = "false") ∧
      ((executeCheck ⟨[("/s/a", .readable "x")], fun _ => .ok "", fun _ _ => false⟩
          "/s" "file_exists" "a" "True").passed = true ↔
        pathExists ⟨[("/s/a", .readable "x")], fun _ => .ok "", fun _ _ => false⟩
            (resolveTarget "/s" "a") = (pyLower "True" == "true")) :=
  ⟨Or.inl (by decide),
    (c5_file_exists_pass_iff
        ⟨[("/s/a", .readable "x")], fun _ => .ok "", fun _ _ => false⟩
        "/s" "a" "True").2 (Or.inl (by decide))⟩

/-! ## Embedding of `verify_fixes.py` (SecurityVerifier) -/

/-- `Severity` enum of `verify_fixes.py`. -/
inductive Severity where
  | critical
  | high
  | medium
  | low
deriving DecidableEq

/-- `CheckResult` enum of `verify_fixes.py` (tri-state audit outcome). -/
inductive CheckResult where
  | pass
  | fail
  | skip
deriving DecidableEq

/-- `VulnerabilityCheck` dataclass. -/
structure VulnerabilityCheck where
  check_id : String
  name : String
  severity : Severity
  file_path : String
  vulnerable_pattern : Option String
  fixed_pattern : Option String
  description : String
  points : ℕ
deriving DecidableEq

/-- `CheckOutcome` dataclass of `verify_fixes.py`. -/
structure CheckOutcome where
  check : VulnerabilityCheck
  result : CheckResult
  message : String
deriving DecidableEq

/-- `SecurityVerifier._define_checks`: the built-in audit profile
(regex pattern strings transcribed literally; braces and apostrophes are
written with character escapes). -/
def defineChecks : List VulnerabilityCheck :=
  [⟨"SQL-001", "SQL Injection in Search", .critical, "app/routes/users.py",
    some "LIKE\\s*[\x27\\\"]%.*\\+.*query_param.*\\+.*%[\x27\\\"]",
    some "execute_query\\([^,]+,\\s*\\([^)]*query_param",
    "Search function uses string concatenation in SQL query", 15⟩,
   ⟨"SQL-002", "SQL Injection in Bulk Lookup", .high, "app/routes/users.py",
    some "f[\"\\\x27]SELECT.*IN\\s*\\(\\\x7b",
    some "execute_query\\([^,]+,\\s*\\(?.*user_ids",
    "Bulk lookup uses f-string interpolation in SQL", 10⟩,
   ⟨"CRYPTO-001", "Weak Password Hashing (MD5)", .critical, "app/utils/crypto.py",
    some "hashlib\\.md5",
    some "bcrypt\\.(hashpw|checkpw|gensalt)",
    "MD5 is used for password hashing instead of bcrypt", 20⟩,
   ⟨"CONFIG-001", "Hardcoded Secret Key", .high, "config.py",
    some "SECRET_KEY\\s*=\\s*[\x27\\\"][a-zA-Z0-9_]\x7b20,\x7d[\x27\\\"]",
    some "SECRET_KEY\\s*=\\s*os\\.environ\\.get\\(",
    "Secret key is hardcoded in source code", 15⟩,
   ⟨"AUTH-001", "Missing Authentication on Admin Endpoint", .critical,
    "app/routes/auth.py",
    some "@auth_bp\\.route\\([\x27\\\"]\\/admin\\/users[\x27\\\"]\\s*,.*\\)\\s*\\ndef admin_list_users",
    some "@(admin_required|token_required).*\\ndef admin_list_users",
    "Admin endpoint lacks authentication decorator", 15⟩,
   ⟨"PATH-001", "Path Traversal in File Access", .high, "app/routes/users.py",
    some "os\\.path\\.join\\(.*filename\\)(?!.*startswith|realpath)",
    some "(startswith\\(|realpath.*==|os\\.path\\.commonpath)",
    "File path not validated against directory traversal", 10⟩,
   ⟨"DESER-001", "Insecure Deserialization (Pickle)", .critical,
    "app/routes/auth.py",
    some "pickle\\.(loads|dumps)",
    some "json\\.(loads|dumps)",
    "Pickle used for session data serialization", 15⟩]

/-- Readable files of the audited code base (path to text). -/
def lookupContent : List (String × String) → String → Option String
  | [], _ => none
  | e :: rest, p => if e.1 = p then some e.2 else lookupContent rest p

/-- `SecurityVerifier._read_file`: join base path and relative path and read;
`FileNotFoundError` and `IOError` both yield `None`. -/
def readFileSec (fs : List (String × String)) (basePath rel : String) : Option String :=
  lookupContent fs (basePath ++ "/" ++ rel)

/-- `SecurityVerifier.run_check`, with `re.search` as an oracle
`matcher pattern content`.  `re.search(None, ...)` raises a `TypeError`,
modelled as the `.error` branch; every other path returns an outcome. -/
def runCheck (matcher : String → String → Bool) (fs : List (String × String))
    (basePath : String) (check : VulnerabilityCheck) : Except String CheckOutcome :=
  match readFileSec fs basePath check.file_path with
  | none => .ok ⟨check, .skip, "File not found: " ++ check.file_path⟩
  | some content =>
    match check.vulnerable_pattern with
    | none => .error "TypeError: first argument must be string or compiled pattern"
    | some vp =>
      let has_vulnerability := matcher vp content
      let has_fix := match check.fixed_pattern with
        | some fp => matcher fp content
        | none => false
      if has_vulnerability && !has_fix then
        .ok ⟨check, .fail, "Vulnerability still present: " ++ check.description⟩
      else if has_fix && !has_vulnerability then
        .ok ⟨check, .pass, "Fixed: " ++ check.name⟩
      else if !has_vulnerability then
        .ok ⟨check, .pass,
          "Vulnerability pattern not found (may be fixed or code changed)"⟩
      else
        .ok ⟨check, .fail,
          "Mixed signals: vulnerable pattern found but fix pattern also present"⟩

/-- `points_total` of `SecurityVerifier.calculate_score`: the points of all
defined checks. -/
def totalPoints (checks : List VulnerabilityCheck) : ℕ :=
  (checks.map (fun c => c.points)).sum

/-- `points_earned`: the points of the checks whose outcome is PASS. -/
def earnedPoints (outcomes : List CheckOutcome) : ℕ :=
  ((outcomes.filter (fun o => o.result == CheckResult.pass)).map
    (fun o => o.check.points)).sum

/-- The `percentage` field of `SecurityVerifier.calculate_score`. -/
def secPercentage (checks : List VulnerabilityCheck)
    (outcomes : List CheckOutcome) : ℚ :=
  if totalPoints checks > 0 then
    pyRound1 ((earnedPoints outcomes : ℚ) / (totalPoints checks : ℚ) * 100)
  else 0

/-- The four-row decision table of spec §4.4, written from the spec's table
(for refinement comparison with `run_check`). -/
def specDecisionTable (vulnFound fixFound : Bool) : CheckResult :=
  match vulnFound, fixFound with
  | true, false => .fail
  | false, true => .pass
  | false, false => .pass
  | true, true => .fail

/-- C2: with both patterns declared, a missing target file yields SKIP
without raising, and a present file yields exactly the spec's four-way
verdict of the two regex tests (the regex mode itself lives in the
`matcher` oracle). -/
theorem c2_run_check_decision_table :
    ∀ (matcher : String → String → Bool) (fs : List (String × String))
      (basePath : String) (check : VulnerabilityCheck) (v f : String),
      check.vulnerable_pattern = some v → check.fixed_pattern = some f →
      (readFileSec fs basePath check.file_path = none →
        runCheck matcher fs basePath check =
          .ok ⟨check, .skip, "File not found: " ++ check.file_path⟩) ∧
      (∀ content, readFileSec fs basePath check.file_path = some content →
        ∃ msg, runCheck matcher fs basePath check =
          .ok ⟨check, specDecisionTable (matcher v content) (matcher f content), msg⟩) := by
  intro matcher fs basePath check v f hv hf
  constructor
  · intro hread
    simp [runCheck, hread]
  · intro content hread
    rw [runCheck, hread, hv]
    cases hvb : matcher v content <;> cases hfb : matcher f content <;>
      simp [hf, hvb, hfb, specDecisionTable]

/-- C2 witness: one missing file (SKIP) and one present file on which only
the fix pattern matches (PASS). -/
theorem c2_run_check_decision_table_witness :
    (runCheck (fun p c => pyIn p c) [] "/b"
        ⟨"X", "x", .low, "f.py", some "vuln", some "fix", "d", 5⟩ =
      .ok ⟨⟨"X", "x", .low, "f.py", some "vuln", some "fix", "d", 5⟩, .skip,
        "File not found: " ++ "f.py"⟩) ∧
    (∃ msg, runCheck (fun p c => pyIn p c) [("/b/f.py", "has fix here")] "/b"
        ⟨"X", "x", .low, "f.py", some "vuln", some "fix", "d", 5⟩ =
      .ok ⟨⟨"X", "x", .low, "f.py", some "vuln", some "fix", "d", 5⟩,
        specDecisionTable (pyIn "vuln" "has fix here") (pyIn "fix" "has fix here"),
        msg⟩) :=
  ⟨(c2_run_check_decision_table (fun p c => pyIn p c) [] "/b"
      ⟨"X", "x", .low, "f.py", some "vuln", some "fix", "d", 5⟩
      "vuln" "fix" rfl rfl).1 (by decide),
   (c2_run_check_decision_table (fun p c => pyIn p c) [("/b/f.py", "has fix here")]
      "/b" ⟨"X", "x", .low, "f.py", some "vuln", some "fix", "d", 5⟩
      "vuln" "fix" rfl rfl).2 "has fix here" (by decide)⟩

/-- Sum of points of the outcomes with a given result. -/
def pointsWith (outcomes : List CheckOutcome) (r : CheckResult) : ℕ :=
  ((outcomes.filter (fun o => o.result == r)).map (fun o => o.check.points)).sum

/-- The claim's skip-excluded percentage, written from the spec's words:
`100 * (points of PASS outcomes) / (points of the non-skipped outcomes)`
(for refinement comparison with `calculate_score`). -/
def specSkipExcludedPercentage (outcomes : List CheckOutcome) : ℚ :=
  100 * (pointsWith outcomes .pass : ℚ) /
    ((pointsWith outcomes .pass + pointsWith outcomes .fail : ℕ) : ℚ)

/-- The defined checks' total points split across the three outcome kinds
when the outcomes cover exactly the checks. -/
theorem totalPoints_partition (outcomes : List CheckOutcome) :
    totalPoints (outcomes.map (fun o => o.check)) =
      pointsWith outcomes .pass + pointsWith outcomes .fail +
        pointsWith outcomes .skip := by
  induction outcomes with
  | nil => rfl
  | cons o t ih =>
    simp only [totalPoints, pointsWith, List.map_cons, List.filter_cons,
      List.sum_cons] at ih ⊢
    cases hr : o.result <;>
      simp [hr, List.map_map, Function.comp] at ih ⊢ <;> omega

/-- C3 counterexample: one passed 15-point check and one skipped 10-point
check.  The code reports 60% (the skipped check's points stay in the
denominator), while the claim's skip-excluded formula gives 100%. -/
theorem c3_skip_counterexample :
    secPercentage
        [⟨"A", "a", .critical, "f1", some "v", some "f", "d", 15⟩,
         ⟨"B", "b", .high, "f2", some "v", some "f", "d", 10⟩]
        [⟨⟨"A", "a", .critical, "f1", some "v", some "f", "d", 15⟩, .pass, "m"⟩,
         ⟨⟨"B", "b", .high, "f2", some "v", some "f", "d", 10⟩, .skip, "m"⟩] = 60 ∧
      specSkipExcludedPercentage
        [⟨⟨"A", "a", .critical, "f1", some "v", some "f", "d", 15⟩, .pass, "m"⟩,
         ⟨⟨"B", "b", .high, "f2", some "v", some "f", "d", 10⟩, .skip, "m"⟩] = 100 := by
  constructor
  · simp +decide only [secPercentage, earnedPoints, totalPoints, List.filter,
      List.map, List.sum_cons, List.sum_nil]
    norm_num [pyRound1, roundHalfEven]
  · simp +decide only [specSkipExcludedPercentage, pointsWith, List.filter,
      List.map, List.sum_cons, List.sum_nil]
    norm_num

/-- C3 amended: the denominator of `calculate_score` is the points of ALL
defined checks — skipped checks included — so a skipped check does lower
the percentage; in terms of the outcome partition the percentage is
`round1(pass / (pass + fail + skip) * 100)`. -/
theorem c3_skip_stays_in_denominator :
    ∀ (checks : List VulnerabilityCheck) (outcomes : List CheckOutcome),
      outcomes.map (fun o => o.check) = checks →
      secPercentage checks outcomes =
        (if pointsWith outcomes .pass + pointsWith outcomes .fail +
              pointsWith outcomes .skip > 0 then
          pyRound1 ((pointsWith outcomes .pass : ℚ) /
            ((pointsWith outcomes .pass + pointsWith outcomes .fail +
              pointsWith outcomes .skip : ℕ) : ℚ) * 100)
        else 0) := by
  intro checks outcomes h
  subst h
  have hpart := totalPoints_partition outcomes
  have hearn : earnedPoints outcomes = pointsWith outcomes .pass := rfl
  rw [secPercentage, hpart, hearn]

/-- C3 amended witness: in the counterexample scenario the amended formula
holds (and evaluates to 60). -/
theorem c3_skip_stays_in_denominator_witness :
    [(⟨⟨"A", "a", .critical, "f1", some "v", some "f", "d", 15⟩, .pass, "m"⟩ : CheckOutcome),
        ⟨⟨"B", "b", .high, "f2", some "v", some "f", "d", 10⟩, .skip, "m"⟩].map
          (fun o => o.check) =
      [⟨"A", "a", .critical, "f1", some "v", some "f", "d", 15⟩,
        ⟨"B", "b", .high, "f2", some "v", some "f", "d", 10⟩] ∧
    secPercentage
        [⟨"A", "a", .critical, "f1", some "v", some "f", "d", 15⟩,
         ⟨"B", "b", .high, "f2", some "v", some "f", "d", 10⟩]
        [⟨⟨"A", "a", .critical, "f1", some "v", some "f", "d", 15⟩, .pass, "m"⟩,
         ⟨⟨"B", "b", .high, "f2", some "v", some "f", "d", 10⟩, .skip, "m"⟩] = 60 := by
  refine ⟨by decide, ?_⟩
  rw [c3_skip_stays_in_denominator
    [⟨"A", "a", .critical, "f1", some "v", some "f", "d", 15⟩,
     ⟨"B", "b", .high, "f2", some "v", some "f", "d", 10⟩]
    [⟨⟨"A", "a", .critical, "f1", some "v", some "f", "d", 15⟩, .pass, "m"⟩,
     ⟨⟨"B", "b", .high, "f2", some "v", some "f", "d", 10⟩, .skip, "m"⟩] (by decide)]
  simp +decide only [pointsWith, List.filter, List.map, List.sum_cons, List.sum_nil]
  norm_num [pyRound1, roundHalfEven]

/-- C10: `run_check` cannot raise when the vulnerable pattern is present
(the only unguarded `re.search` argument); a `None` fixed pattern is
guarded and treated as absent fix evidence; and every check of the
built-in profile declares a vulnerable pattern. -/
theorem c10_run_check_totality :
    (∀ (matcher : String → String → Bool) (fs : List (String × String))
        (basePath : String) (check : VulnerabilityCheck),
      check.vulnerable_pattern.isSome = true →
      ∃ o, runCheck matcher fs basePath check = .ok o) ∧
    (∀ check ∈ defineChecks, check.vulnerable_pattern.isSome = true) ∧
    (∀ (matcher : String → String → Bool) (fs : List (String × String))
        (basePath : String) (check : VulnerabilityCheck) (v content : String),
      check.vulnerable_pattern = some v → check.fixed_pattern = none →
      readFileSec fs basePath check.file_path = some content →
      ∃ msg, runCheck matcher fs basePath check =
        .ok ⟨check, specDecisionTable (matcher v content) false, msg⟩) := by
  refine ⟨fun matcher fs basePath check hv => ?_, ?_,
    fun matcher fs basePath check v content hv hf hread => ?_⟩
  · cases hread : readFileSec fs basePath check.file_path with
    | none => simp [runCheck, hread]
    | some content =>
      obtain ⟨v, hvp⟩ := Option.isSome_iff_exists.mp hv
      cases hfp : check.fixed_pattern with
      | none =>
        cases hvb : matcher v content <;>
          simp [runCheck, hread, hvp, hfp, hvb]
      | some fp =>
        cases hvb : matcher v content <;> cases hfb : matcher fp content <;>
          simp [runCheck, hread, hvp, hfp, hvb, hfb]
  · intro check hmem
    fin_cases hmem <;> rfl
  · rw [runCheck, hread, hv]
    cases hvb : matcher v content <;>
      simp [hf, hvb, specDecisionTable]

/-- C10 witness: totality on the first built-in check against an empty
file system. -/
theorem c10_run_check_totality_witness :
    ∃ o, runCheck (fun p c => pyIn p c) [] "/b"
        ⟨"X", "x", .low, "f.py", some "vuln", none, "d", 5⟩ = .ok o :=
  c10_run_check_totality.1 (fun p c => pyIn p c) [] "/b"
    ⟨"X", "x", .low, "f.py", some "vuln", none, "d", 5⟩ rfl

/-! ## Embedding of `benchmark_evaluation.py` (`analyze_results`) -/

/-- The fields of one task result consumed by `analyze_results`
(an `EvaluationRecord`). -/
structure TaskRecord where
  difficulty : String
  success : Bool
  duration_seconds : ℚ
deriving DecidableEq

/-- The per-difficulty mutable stats dict entry
`{"total": _, "success": _, "durations": _}`. -/
structure DiffStats where
  total : ℕ
  success : ℕ
  durations : List ℚ
deriving DecidableEq

/-- Processing one record into its bucket: `total += 1`, conditional
`success += 1`, `durations.append(...)`. -/
def bump (s : DiffStats) (r : TaskRecord) : DiffStats :=
  ⟨s.total + 1, s.success + (if r.success then 1 else 0),
   s.durations ++ [r.duration_seconds]⟩

/-- Key membership in the insertion-ordered dict. -/
def hasKey : List (String × DiffStats) → String → Bool
  | [], _ => false
  | e :: rest, d => if e.1 = d then true else hasKey rest d

/-- In-place update of the (unique) entry holding the record's difficulty. -/
def updateEntry : List (String × DiffStats) → TaskRecord → List (String × DiffStats)
  | [], _ => []
  | e :: rest, r =>
    if e.1 = r.difficulty then (e.1, bump e.2 r) :: rest
    else e :: updateEntry rest r

/-- One iteration of the `for result in task_results` loop: create the
bucket on first sight (Python dicts append new keys at the end), then
update it. -/
def stepDict (dict : List (String × DiffStats)) (r : TaskRecord) :
    List (String × DiffStats) :=
  if hasKey dict r.difficulty then updateEntry dict r
  else dict ++ [(r.difficulty, bump ⟨0, 0, []⟩ r)]

/-- The `by_difficulty` dict built by `analyze_results`, as an
insertion-ordered association list. -/
def byDifficulty (l : List TaskRecord) : List (String × DiffStats) :=
  l.foldl stepDict []

/-- Dict lookup. -/
def lookupStats : List (String × DiffStats) → String → Option DiffStats
  | [], _ => none
  | e :: rest, d => if e.1 = d then some e.2 else lookupStats rest d

/-- The derived per-bucket fields exposed by the report:
`total`, `success`, `success_rate`, `avg_duration`. -/
structure DiffSummary where
  total : ℕ
  success : ℕ
  success_rate : ℚ
  avg_duration : ℚ
deriving DecidableEq

/-- The second loop of `analyze_results`: success rate and average
duration per bucket. -/
def finalize (s : DiffStats) : DiffSummary :=
  ⟨s.total, s.success,
   if s.total > 0 then (s.success : ℚ) / (s.total : ℚ) else 0,
   if s.durations.length > 0 then s.durations.sum / (s.durations.length : ℚ) else 0⟩

/-- The `by_difficulty` map as reported: bucket key to derived stats. -/
def byDifficultySummary (l : List TaskRecord) (d : String) : Option DiffSummary :=
  (lookupStats (byDifficulty l) d).map finalize

/-- Python's `f"{rate:.0%}"` percent formatting (banker's rounding to a
whole percent). -/
def fmtPct (q : ℚ) : String := toString (roundHalfEven (q * 100)) ++ "%"

/-- The overall-success-rate recommendations of `analyze_results`. -/
def overallRecs (l : List TaskRecord) : List String :=
  let successful := (l.filter (fun r => r.success)).length
  let rate : ℚ := if l.length > 0 then (successful : ℚ) / (l.length : ℚ) else 0
  if rate > 4/5 then
    ["Tasks are too easy - increase difficulty factors",
     "Consider adding more traps and edge cases"]
  else if rate < 1/5 then
    ["Tasks may be too hard or unclear - review problem statements",
     "Consider simplifying instructions or adding more context"]
  else ["Difficulty calibration looks reasonable"]

/-- The per-bucket recommendation of the difficulty-distribution loop. -/
def diffRecs (d : String) (rate : ℚ) : List String :=
  if pyLower d = "easy" ∧ rate < 7/10 then
    ["Easy tasks are too hard (success rate: " ++ fmtPct rate ++ ")"]
  else if pyLower d = "hard" ∧ rate > 1/2 then
    ["Hard tasks are too easy (success rate: " ++ fmtPct rate ++ ")"]
  else []

/-- The full recommendation list of `analyze_results`: the overall rules,
then one entry per matching bucket in dict iteration order. -/
def recommendations (l : List TaskRecord) : List String :=
  overallRecs l ++
    (byDifficulty l).flatMap (fun e => diffRecs e.1 (finalize e.2).success_rate)

/-- Extending a bucket with a batch of records at once. -/
def extendStats (s : DiffStats) (b : List TaskRecord) : DiffStats :=
  ⟨s.total + b.length, s.success + (b.filter (fun r => r.success)).length,
   s.durations ++ b.map (fun r => r.duration_seconds)⟩

/-- Merging a batch into an optional existing bucket. -/
def mergeAcc : Option DiffStats → List TaskRecord → Option DiffStats
  | some s, b => some (extendStats s b)
  | none, b => if b.isEmpty then none else some (extendStats ⟨0, 0, []⟩ b)

/-- Extending by nothing changes nothing. -/
theorem mergeAcc_nil (o : Option DiffStats) : mergeAcc o [] = o := by
  cases o with
  | none => rfl
  | some s => cases s; simp [mergeAcc, extendStats]

/-- Batch extension absorbs a single-record bump. -/
theorem extendStats_cons (s : DiffStats) (r : TaskRecord) (b : List TaskRecord) :
    extendStats s (r :: b) = extendStats (bump s r) b := by
  cases s
  simp only [extendStats, bump, List.length_cons, List.filter_cons, List.map_cons,
    DiffStats.mk.injEq]
  refine ⟨by omega, ?_, by simp⟩
  cases hr : r.success
  · simp [hr]
  · simp [hr]
    omega

/-- Merging absorbs a single-record bump. -/
theorem mergeAcc_cons (o : Option DiffStats) (r : TaskRecord) (b : List TaskRecord) :
    mergeAcc o (r :: b) =
      some (extendStats (bump (o.getD ⟨0, 0, []⟩) r) b) := by
  cases o with
  | none => simp [mergeAcc, extendStats_cons]
  | some s => simp [mergeAcc, extendStats_cons]

/-- Lookup after an in-place update. -/
theorem lookupStats_updateEntry (dict : List (String × DiffStats))
    (r : TaskRecord) (d : String) :
    lookupStats (updateEntry dict r) d =
      if d = r.difficulty then (lookupStats dict d).map (fun s => bump s r)
      else lookupStats dict d := by
  induction dict with
  | nil => simp [updateEntry, lookupStats]
  | cons e rest ih =>
    by_cases he : e.1 = r.difficulty <;> by_cases hd : d = r.difficulty <;>
      by_cases hed : e.1 = d <;>
        simp_all [updateEntry, lookupStats]

/-- Lookup through a dict append. -/
theorem lookupStats_append (d₁ d₂ : List (String × DiffStats)) (d : String) :
    lookupStats (d₁ ++ d₂) d =
      match lookupStats d₁ d with
      | some s => some s
      | none => lookupStats d₂ d := by
  induction d₁ with
  | nil => simp [lookupStats]
  | cons e rest ih =>
    by_cases he : e.1 = d <;> simp [lookupStats, he, ih]

/-- Absent keys look up to nothing. -/
theorem lookupStats_eq_none_of_hasKey_false
    (dict : List (String × DiffStats)) (d : String)
    (h : hasKey dict d = false) : lookupStats dict d = none := by
  induction dict with
  | nil => rfl
  | cons e rest ih =>
    by_cases he : e.1 = d <;> simp_all [hasKey, lookupStats, he]

/-- Present keys look up to something. -/
theorem lookupStats_isSome_of_hasKey
    (dict : List (String × DiffStats)) (d : String)
    (h : hasKey dict d = true) : (lookupStats dict d).isSome = true := by
  induction dict with
  | nil => simp [hasKey] at h
  | cons e rest ih =>
    by_cases he : e.1 = d <;> simp_all [hasKey, lookupStats, he]

/-- Lookup after one loop iteration. -/
theorem lookupStats_stepDict (dict : List (String × DiffStats))
    (r : TaskRecord) (d : String) :
    lookupStats (stepDict dict r) d =
      if d = r.difficulty then
        some (bump ((lookupStats dict d).getD ⟨0, 0, []⟩) r)
      else lookupStats dict d := by
  unfold stepDict
  by_cases hk : hasKey dict r.difficulty
  · rw [if_pos hk, lookupStats_updateEntry]
    by_cases hd : d = r.difficulty
    · subst hd
      obtain ⟨s, hs⟩ :=
        Option.isSome_iff_exists.mp
          (lookupStats_isSome_of_hasKey dict r.difficulty hk)
      simp [hs]
    · simp [hd]
  · rw [if_neg hk, lookupStats_append]
    by_cases hd : d = r.difficulty
    · subst hd
      rw [lookupStats_eq_none_of_hasKey_false dict r.difficulty (by simpa using hk)]
      simp [lookupStats]
    · cases hl : lookupStats dict d with
      | some s => simp [hl, hd]
      | none =>
        simp only [hl]
        simp [lookupStats, hd, Ne.symm hd]

/-- The loop over records computes, for every key, the merge of the batch
of records carrying that key into the accumulator's bucket. -/
theorem lookupStats_foldl (l : List TaskRecord) :
    ∀ (acc : List (String × DiffStats)) (d : String),
      lookupStats (l.foldl stepDict acc) d =
        mergeAcc (lookupStats acc d)
          (l.filter (fun r => r.difficulty == d)) := by
  induction l with
  | nil => intro acc d; simp [mergeAcc_nil]
  | cons r t ih =>
    intro acc d
    rw [List.foldl_cons, ih (stepDict acc r) d, lookupStats_stepDict]
    by_cases hd : d = r.difficulty
    · rw [if_pos hd, List.filter_cons_of_pos (by simp [hd]), mergeAcc_cons]
      rfl
    · rw [if_neg hd,
        List.filter_cons_of_neg (by simp; exact fun h => hd h.symm)]

/-- Characterization of the finished dict: each key's bucket is the batch
of records carrying it. -/
theorem lookupStats_byDifficulty (l : List TaskRecord) (d : String) :
    lookupStats (byDifficulty l) d =
      mergeAcc none (l.filter (fun r => r.difficulty == d)) := by
  rw [byDifficulty, lookupStats_foldl l [] d]
  rfl

/-- A non-empty batch merged into an empty bucket. -/
theorem mergeAcc_none_of_ne_nil {b : List TaskRecord} (h : b ≠ []) :
    mergeAcc none b = some (extendStats ⟨0, 0, []⟩ b) := by
  cases b with
  | nil => exact absurd rfl h
  | cons x xs => rfl

/-- A batch merged into an empty bucket is empty iff the batch is. -/
theorem mergeAcc_none_eq_none_iff (b : List TaskRecord) :
    mergeAcc none b = none ↔ b = [] := by
  cases b <;> simp [mergeAcc]

/-- The reported bucket fields only depend on the multiset of records. -/
theorem byDifficultySummary_perm {l1 l2 : List TaskRecord} (h : l1.Perm l2)
    (d : String) : byDifficultySummary l1 d = byDifficultySummary l2 d := by
  unfold byDifficultySummary
  rw [lookupStats_byDifficulty, lookupStats_byDifficulty]
  have hp := h.filter (fun r => r.difficulty == d)
  set b1 := l1.filter (fun r => r.difficulty == d) with hb1
  set b2 := l2.filter (fun r => r.difficulty == d) with hb2
  cases hB1 : b1 with
  | nil =>
    have : b2 = [] := by
      have := hp.length_eq
      rw [hB1] at this
      exact List.length_eq_zero.mp this.symm
    rw [this]
  | cons x xs =>
    have hne2 : b2 ≠ [] := by
      intro hc
      rw [hc, hB1] at hp
      exact absurd hp.length_eq (by simp)
    rw [← hB1]
    have hne1 : b1 ≠ [] := by rw [hB1]; simp
    rw [mergeAcc_none_of_ne_nil hne1, mergeAcc_none_of_ne_nil hne2]
    show some (finalize (extendStats ⟨0, 0, []⟩ b1)) =
      some (finalize (extendStats ⟨0, 0, []⟩ b2))
    have hlen := hp.length_eq
    have hsucc := (hp.filter (fun r => r.success)).length_eq
    have hsum : (b1.map (fun r => r.duration_seconds)).sum =
        (b2.map (fun r => r.duration_seconds)).sum :=
      (hp.map (fun r => r.duration_seconds)).sum_eq
    have hdlen : (b1.map (fun r => r.duration_seconds)).length =
        (b2.map (fun r => r.duration_seconds)).length := by
      simp [hlen]
    simp [finalize, extendStats, hlen, hsucc, hsum, hdlen]

/-- The keys of the dict, in insertion order. -/
def keyList (dict : List (String × DiffStats)) : List String :=
  dict.map Prod.fst

/-- In-place update leaves the keys unchanged. -/
theorem keyList_updateEntry (dict : List (String × DiffStats)) (r : TaskRecord) :
    keyList (updateEntry dict r) = keyList dict := by
  induction dict with
  | nil => rfl
  | cons e rest ih =>
    by_cases he : e.1 = r.difficulty
    · simp [updateEntry, keyList, he]
    · simp only [updateEntry, if_neg he, keyList, List.map_cons]
      simpa [keyList] using ih

/-- One loop iteration appends the key exactly when it is new. -/
theorem keyList_stepDict (dict : List (String × DiffStats)) (r : TaskRecord) :
    keyList (stepDict dict r) =
      if hasKey dict r.difficulty then keyList dict
      else keyList dict ++ [r.difficulty] := by
  unfold stepDict
  by_cases hk : hasKey dict r.difficulty
  · simp [hk, keyList_updateEntry]
  · simp [hk, keyList]

/-- Key membership agrees with `hasKey`. -/
theorem hasKey_iff_mem (dict : List (String × DiffStats)) (d : String) :
    hasKey dict d = true ↔ d ∈ keyList dict := by
  induction dict with
  | nil => simp [hasKey, keyList]
  | cons e rest ih =>
    by_cases he : e.1 = d
    · simp [hasKey, keyList, he]
    · simp only [hasKey, if_neg he, ih]
      simp [keyList, Ne.symm he]

/-- The loop preserves distinctness of the keys. -/
theorem keyList_foldl_nodup (l : List TaskRecord) :
    ∀ acc : List (String × DiffStats),
      (keyList acc).Nodup → (keyList (l.foldl stepDict acc)).Nodup := by
  induction l with
  | nil => intro acc h; simpa using h
  | cons r t ih =>
    intro acc h
    rw [List.foldl_cons]
    refine ih (stepDict acc r) ?_
    rw [keyList_stepDict]
    by_cases hk : hasKey acc r.difficulty
    · simpa [hk] using h
    · rw [if_neg hk]
      refine List.Nodup.append h (List.nodup_singleton _) ?_
      intro a ha hb
      rw [List.mem_singleton] at hb
      subst hb
      exact hk ((hasKey_iff_mem acc r.difficulty).mpr ha)

/-- The finished dict has distinct keys. -/
theorem keyList_byDifficulty_nodup (l : List TaskRecord) :
    (keyList (byDifficulty l)).Nodup :=
  keyList_foldl_nodup l [] (by simp [keyList])

/-- Key membership agrees with lookup success. -/
theorem mem_keyList_iff_lookup (dict : List (String × DiffStats)) (d : String) :
    d ∈ keyList dict ↔ lookupStats dict d ≠ none := by
  induction dict with
  | nil => simp [keyList, lookupStats]
  | cons e rest ih =>
    by_cases he : e.1 = d
    · simp [keyList, lookupStats, he]
    · simp only [lookupStats, if_neg he, ← ih]
      simp [keyList, Ne.symm he]

/-- With distinct keys, each entry is what its key looks up to. -/
theorem lookup_of_mem_nodup :
    ∀ (dict : List (String × DiffStats)), (keyList dict).Nodup →
      ∀ e ∈ dict, lookupStats dict e.1 = some e.2 := by
  intro dict
  induction dict with
  | nil => intro _ e he; cases he
  | cons f rest ih =>
    intro hnd e he
    rw [keyList, List.map_cons, List.nodup_cons] at hnd
    rcases List.mem_cons.mp he with rfl | hmem
    · simp [lookupStats]
    · have hne : f.1 ≠ e.1 := by
        intro hc
        exact hnd.1 (hc ▸ List.mem_map_of_mem Prod.fst hmem)
      simp only [lookupStats, if_neg hne]
      exact ih hnd.2 e hmem

/-- The recommendation contribution of one key, read off the dict. -/
def recsVia (dict : List (String × DiffStats)) (d : String) : List String :=
  match lookupStats dict d with
  | some s => diffRecs d (finalize s).success_rate
  | none => []

/-- `flatMap` respects pointwise agreement on members. -/
theorem flatMapCongr {α β : Type} (l : List α) (f g : α → List β)
    (h : ∀ a ∈ l, f a = g a) : l.flatMap f = l.flatMap g := by
  induction l with
  | nil => rfl
  | cons x xs ih =>
    simp only [List.flatMap_cons]
    rw [h x (List.mem_cons_self x xs),
      ih (fun a ha => h a (List.mem_cons_of_mem x ha))]

/-- With distinct keys, iterating the dict entries is iterating its keys
through lookup. -/
theorem flatMap_recs_eq (dict : List (String × DiffStats))
    (hnd : (keyList dict).Nodup) :
    dict.flatMap (fun e => diffRecs e.1 (finalize e.2).success_rate) =
      (keyList dict).flatMap (recsVia dict) := by
  rw [keyList, List.flatMap_map]
  refine (flatMapCongr dict _ _ ?_).symm
  intro e he
  show recsVia dict e.1 = diffRecs e.1 (finalize e.2).success_rate
  rw [recsVia, lookup_of_mem_nodup dict hnd e he]

/-- C7: `analyze_results` is a pure function of the multiset of records —
any permutation of the input yields the same `by_difficulty` map of derived
bucket stats and a permutation (hence the same set) of the recommendation
list. -/
theorem c7_analyze_order_invariant :
    ∀ l1 l2 : List TaskRecord, l1.Perm l2 →
      (∀ d, byDifficultySummary l1 d = byDifficultySummary l2 d) ∧
      (recommendations l1).Perm (recommendations l2) := by
  intro l1 l2 h
  have hsum := fun d => byDifficultySummary_perm h d
  refine ⟨hsum, ?_⟩
  unfold recommendations
  have hover : overallRecs l1 = overallRecs l2 := by
    unfold overallRecs
    rw [h.length_eq, (h.filter (fun r => r.success)).length_eq]
  rw [hover]
  refine List.Perm.append_left _ ?_
  have hA := keyList_byDifficulty_nodup l1
  have hB := keyList_byDifficulty_nodup l2
  have hmem : ∀ d, d ∈ keyList (byDifficulty l1) ↔
      d ∈ keyList (byDifficulty l2) := by
    intro d
    rw [mem_keyList_iff_lookup, mem_keyList_iff_lookup,
      lookupStats_byDifficulty, lookupStats_byDifficulty,
      Ne, Ne, mergeAcc_none_eq_none_iff, mergeAcc_none_eq_none_iff]
    have hp := (h.filter (fun r => r.difficulty == d)).length_eq
    constructor
    · intro h1 h2
      exact h1 (List.length_eq_zero.mp (by rw [hp, h2]; rfl))
    · intro h1 h2
      exact h1 (List.length_eq_zero.mp (by rw [← hp, h2]; rfl))
  have hkeys : (keyList (byDifficulty l1)).Perm (keyList (byDifficulty l2)) :=
    (List.perm_ext_iff_of_nodup hA hB).mpr hmem
  rw [flatMap_recs_eq _ hA, flatMap_recs_eq _ hB]
  have hpt : ∀ d ∈ keyList (byDifficulty l1),
      recsVia (byDifficulty l1) d = recsVia (byDifficulty l2) d := by
    intro d hd
    have h1 := hsum d
    unfold byDifficultySummary at h1
    unfold recsVia
    cases hA1 : lookupStats (byDifficulty l1) d with
    | none =>
      cases hA2 : lookupStats (byDifficulty l2) d with
      | none => rfl
      | some s2 => rw [hA1, hA2] at h1; simp at h1
    | some s1 =>
      cases hA2 : lookupStats (byDifficulty l2) d with
      | none => rw [hA1, hA2] at h1; simp at h1
      | some s2 =>
        rw [hA1, hA2] at h1
        have hfin : finalize s1 = finalize s2 := by simpa using h1
        show diffRecs d (finalize s1).success_rate =
          diffRecs d (finalize s2).success_rate
        rw [hfin]
  rw [flatMapCongr _ _ _ hpt]
  exact List.Perm.flatMap_right (recsVia (byDifficulty l2)) hkeys

/-- C7 witness: swapping two records (an easy success and a hard failure)
permutes the recommendation list. -/
theorem c7_analyze_order_invariant_witness :
    (recommendations
        [(⟨"easy", true, 2⟩ : TaskRecord), ⟨"hard", false, 4⟩]).Perm
      (recommendations
        [(⟨"hard", false, 4⟩ : TaskRecord), ⟨"easy", true, 2⟩]) :=
  (c7_analyze_order_invariant
    [(⟨"easy", true, 2⟩ : TaskRecord), ⟨"hard", false, 4⟩]
    [(⟨"hard", false, 4⟩ : TaskRecord), ⟨"easy", true, 2⟩]
    (List.Perm.swap (⟨"hard", false, 4⟩ : TaskRecord) ⟨"easy", true, 2⟩ [])).2
